import Mathlib

/-!
Verification of the bounded-concurrency batch download orchestrator
(`dlfast`, the Go source file of this repository holding `runDownloads`,
`downloadFile`, `sanitizeFilename`, `parseContentDisposition`,
`decodeRFC5987`, `inferFilenameFromURL`, `validateURL`, `setupDestination`,
`buildAria2cArgs` and `main`).

Modelling conventions:
* Go strings are byte strings; we model them as `Str := List Char`, reading
  each `Char` as one byte (all inputs of interest are ASCII, where the two
  views coincide; percent-decoding produces the byte value as a `Char`).
* `time.Now()` is modelled by a natural-number parameter `now`; the Go
  `Format` calls (`"20060102_150405"`, `"20060102150405"`, `"150405"`) are
  modelled by `timestampStr`, a decimal-digit rendering of `now`.  All the
  claims use only that the rendering consists of digits and that distinct
  times render distinctly at concrete points.
* The file system, the HTTP probe and the aria2c subprocess are external
  collaborators; they enter as explicit parameters (`FileSys`,
  `ProbeResult`, `SubprocResult`) and the functions that consume them are
  transcribed from the source.
* The Go standard library functions used by the source
  (`strings.Trim`, `strings.ToUpper`, `url.Parse`, `url.QueryUnescape`,
  `filepath.Base/Clean/Join/Abs`, `regexp` on the two literal patterns)
  are modelled faithfully on `Str` following their documented algorithms,
  restricted to the slash-separated Unix layout the program runs on.
-/

/-- Byte strings, the model of Go `string`. -/
abbrev Str : Type := List Char

/-- Coerce a Lean string literal to the byte-string model. -/
def str (s : String) : Str := s.data

/-- Decimal digit character for `n % 10`. -/
def digitChar (n : Nat) : Char := Char.ofNat (48 + n % 10)

/-- Fueled most-significant-first decimal digit expansion. -/
def natDigitsAux : Nat → Nat → List Char
  | 0, _ => []
  | fuel + 1, n => if n = 0 then [] else natDigitsAux fuel (n / 10) ++ [digitChar (n % 10)]

/-- Decimal rendering of a natural number (model of Go `%d` on non-negative values). -/
def natToStr (n : Nat) : Str := if n = 0 then ['0'] else natDigitsAux n n

/-- Decimal rendering of a Go `int` (model of `%d` and `strconv.Itoa`). -/
def intToStr (n : Int) : Str := if n < 0 then '-' :: natToStr n.natAbs else natToStr n.toNat

/-- Model of the `time.Now().Format(...)` timestamp strings appearing in
`sanitizeFilename` and `inferFilenameFromURL`: an opaque clock reading
`now` rendered as decimal digits. -/
def timestampStr (now : Nat) : Str := natToStr now

/-- The characters of the source regex character class `[<>:"/\\|?*]`
(`dangerousCharsRe`). -/
def dangerousChars : Str := ['<', '>', ':', '"', '/', '\\', '|', '?', '*']

/-- Whether a character belongs to the dangerous class. -/
def isDangerousChar (c : Char) : Bool := dangerousChars.contains c

/-- Model of `dangerousCharsRe.ReplaceAllString(filename, "_")`: the regex is a
single character class, so replacement is a character-wise map. -/
def replaceDangerous (s : Str) : Str :=
  s.map (fun c => if isDangerousChar c then '_' else c)

/-- Model of Go `strings.Trim s cutset`: remove leading and trailing
characters belonging to `cut`. -/
def trimCutset (cut : Str) (s : Str) : Str :=
  ((s.dropWhile (fun c => cut.contains c)).reverse.dropWhile (fun c => cut.contains c)).reverse

/-- ASCII upper-casing, the model of `strings.ToUpper` on the (ASCII)
reserved-name comparisons of `isReservedName`. -/
def asciiUpper (s : Str) : Str :=
  s.map (fun c => if 'a' ≤ c ∧ c ≤ 'z' then Char.ofNat (c.toNat - 32) else c)

/-- The reserved Windows device names listed in `isReservedName`. -/
def reservedNames : List Str :=
  [str "CON", str "PRN", str "AUX", str "NUL", str "COM1", str "COM2", str "COM3",
   str "COM4", str "COM5", str "COM6", str "COM7", str "COM8", str "COM9",
   str "LPT1", str "LPT2", str "LPT3", str "LPT4", str "LPT5", str "LPT6",
   str "LPT7", str "LPT8", str "LPT9"]

/-- Transcription of `isReservedName`: upper-case the name and compare with
each reserved name. -/
def isReservedName (name : Str) : Bool :=
  reservedNames.contains (asciiUpper name)

/-- Transcription of `sanitizeFilename`: replace dangerous characters by
underscore, trim leading and trailing spaces and dots, and fall back to
`download_` plus a timestamp when the result is empty or reserved. -/
def sanitizeFilename (filename : Str) (now : Nat) : Str :=
  let f := replaceDangerous filename
  let f := trimCutset (str " .") f
  if f = [] ∨ isReservedName f then str "download_" ++ timestampStr now else f

example : sanitizeFilename (str "report final.pdf") 7 = str "report final.pdf" := by decide
example : sanitizeFilename (str "a<b>c.txt") 7 = str "a_b_c.txt" := by decide
example : sanitizeFilename (str "  CON  ") 7 = str "download_7" := by decide
example : sanitizeFilename (str "...") 12 = str "download_12" := by decide

/-- Hex digit test, as in Go `net/url` `ishex`. -/
def isHexChar (c : Char) : Bool :=
  ('0' ≤ c ∧ c ≤ '9') ∨ ('a' ≤ c ∧ c ≤ 'f') ∨ ('A' ≤ c ∧ c ≤ 'F')

/-- Hex digit value, as in Go `net/url` `unhex`. -/
def hexVal (c : Char) : Nat :=
  if '0' ≤ c ∧ c ≤ '9' then c.toNat - 48
  else if 'a' ≤ c ∧ c ≤ 'f' then c.toNat - 87
  else if 'A' ≤ c ∧ c ≤ 'F' then c.toNat - 55
  else 0

/-- Model of Go `net/url` `unescape`: decode `%XX` escapes (failing on a
malformed escape), and map `+` to space exactly when `plusToSpace` is set
(query mode, used by `url.QueryUnescape`; path mode leaves `+` alone). -/
def unescapePercent (plusToSpace : Bool) : Str → Option Str
  | [] => some []
  | '%' :: a :: b :: rest =>
    if isHexChar a ∧ isHexChar b then
      (unescapePercent plusToSpace rest).map (fun r => Char.ofNat (16 * hexVal a + hexVal b) :: r)
    else none
  | '%' :: _ :: [] => none
  | '%' :: [] => none
  | '+' :: rest =>
    (unescapePercent plusToSpace rest).map (fun r => (if plusToSpace then ' ' else '+') :: r)
  | c :: rest => (unescapePercent plusToSpace rest).map (fun r => c :: r)

/-- Model of Go `url.QueryUnescape`. -/
def queryUnescape (s : Str) : Option Str := unescapePercent true s

/-- Split at the first two occurrences of a separator, the model of Go
`strings.SplitN s sep 3` restricted to the `len(parts) == 3` test made by
`decodeRFC5987`: `some` exactly when the separator occurs at least twice. -/
def splitN3 (sep : Char) (s : Str) : Option (Str × Str × Str) :=
  let p1 := s.takeWhile (fun c => c ≠ sep)
  let r1 := s.dropWhile (fun c => c ≠ sep)
  match r1 with
  | [] => none
  | _ :: r2 =>
    let p2 := r2.takeWhile (fun c => c ≠ sep)
    let r3 := r2.dropWhile (fun c => c ≠ sep)
    match r3 with
    | [] => none
    | _ :: rest => some (p1, p2, rest)

/-- Transcription of `decodeRFC5987`: split `charset'lang'value` on the first
two apostrophes and percent-unescape the value, returning the empty string
on any failure (fewer than three parts, or a bad escape). -/
def decodeRFC5987 (encoded : Str) : Str :=
  match splitN3 '\'' encoded with
  | none => []
  | some (_, _, v) =>
    match queryUnescape v with
    | none => []
    | some d => d

/-- Whitespace class of the RE2 escape `\s`: tab, newline, form feed,
carriage return, space. -/
def reWS (c : Char) : Bool :=
  c = ' ' ∨ c = '\t' ∨ c = '\n' ∨ c.toNat = 12 ∨ c.toNat = 13

/-- Match a literal character sequence as a prefix, returning the remainder. -/
def matchLit : Str → Str → Option Str
  | [], rest => some rest
  | _, [] => none
  | l :: ls, c :: cs => if c = l then matchLit ls cs else none

/-- Match the regex tail `\s*=\s*([^;]+)` at the head of `l` and return the
capture, with RE2 leftmost-first semantics: the second `\s*` is greedy, and
when the remainder after the whitespace run offers no `[^;]+` character the
engine gives back one whitespace character to the capture. -/
def matchEqCapture (l : Str) : Option Str :=
  let l1 := l.dropWhile reWS
  match l1 with
  | '=' :: l2 =>
    let ws2 := l2.takeWhile reWS
    let l3 := l2.dropWhile reWS
    let cap := l3.takeWhile (fun c => c ≠ ';')
    if cap ≠ [] then some cap
    else
      match ws2.getLast? with
      | some w => some [w]
      | none => none
  | _ => none

/-- Match `contentDispositionFilenameStarRe` = `filename\*\s*=\s*([^;]+)` at
the head of `l`, returning the capture group. -/
def matchStarAt (l : Str) : Option Str :=
  match matchLit (str "filename") l with
  | some ('*' :: rest) => matchEqCapture rest
  | _ => none

/-- Match `contentDispositionFilenameRe` = `filename\s*=\s*([^;]+)` at the
head of `l`, returning the capture group. -/
def matchPlainAt (l : Str) : Option Str :=
  match matchLit (str "filename") l with
  | some rest => matchEqCapture rest
  | none => none

/-- Leftmost match of a positional matcher, the model of RE2
`FindStringSubmatch` for the two anchorless patterns above. -/
def findFirst (m : Str → Option Str) : Str → Option Str
  | [] => m []
  | l@(_ :: tl) =>
    match m l with
    | some cap => some cap
    | none => findFirst m tl

/-- Leftmost capture of `contentDispositionFilenameStarRe` in a header. -/
def findFilenameStar (h : Str) : Option Str := findFirst matchStarAt h

/-- Leftmost capture of `contentDispositionFilenameRe` in a header. -/
def findFilenamePlain (h : Str) : Option Str := findFirst matchPlainAt h

/-- The cutset `"' ` used by `parseContentDisposition` on both captures. -/
def quoteCutset : Str := ['"', '\'', ' ']

/-- Transcription of `parseContentDisposition`: prefer the RFC 5987 encoded
`filename*` parameter when it decodes to a non-empty name, then fall back
to the plain `filename` parameter with quotes and spaces trimmed, then to
the empty string. -/
def parseContentDisposition (header : Str) : Str :=
  if header = [] then []
  else
    let viaStar :=
      match findFilenameStar header with
      | some m => decodeRFC5987 (trimCutset quoteCutset m)
      | none => []
    if viaStar ≠ [] then viaStar
    else
      match findFilenamePlain header with
      | some m => trimCutset quoteCutset m
      | none => []

example : parseContentDisposition (str "attachment; filename=\"report final.pdf\"") =
    str "report final.pdf" := by decide
example : parseContentDisposition
    (str "attachment; filename=\"plain.txt\"; filename*=utf-8\x27\x27report%20final.pdf") =
    str "report final.pdf" := by decide
example : parseContentDisposition (str "attachment; filename*=bogus; filename=x.txt") =
    str "x.txt" := by decide
example : parseContentDisposition (str "inline") = [] := by decide

/-- ASCII letter test (Go `getScheme` first character class). -/
def isAlphaChar (c : Char) : Bool := ('a' ≤ c ∧ c ≤ 'z') ∨ ('A' ≤ c ∧ c ≤ 'Z')

/-- ASCII digit test. -/
def isDigitChar (c : Char) : Bool := '0' ≤ c ∧ c ≤ '9'

/-- Control-byte test of Go `net/url` `stringContainsCTLByte`. -/
def containsCTL (s : Str) : Bool := s.any (fun c => c.toNat < 32 ∨ c.toNat = 127)

/-- Cut a string at the first occurrence of `sep`, dropping the separator,
as Go `net/url` `split(s, sep, true)`; `none` in the second component when
the separator is absent. -/
def cutFirst (sep : Char) : Str → Str × Option Str
  | [] => ([], none)
  | c :: rest =>
    if c = sep then ([], some rest)
    else
      let p := cutFirst sep rest
      (c :: p.1, p.2)

/-- ASCII lower-casing, the model of the `strings.ToLower` Go `url.parse`
applies to the scheme. -/
def asciiLower (s : Str) : Str :=
  s.map (fun c => if 'A' ≤ c ∧ c ≤ 'Z' then Char.ofNat (c.toNat + 32) else c)

/-- Transcription of Go `net/url` `getScheme`: a scheme is a letter followed
by letters, digits, `+`, `-`, `.` up to a colon; a leading colon is an
error (`.error`), any other shape means no scheme and the whole input is
the remainder.  The scheme is lower-cased as `url.parse` does. -/
def getSchemeAux (acc : Str) : Str → Except Unit (Str × Str)
  | [] => .ok ([], acc.reverse)
  | c :: rest =>
    if c = ':' then
      if acc = [] then .error () else .ok (asciiLower acc.reverse, rest)
    else if isAlphaChar c then getSchemeAux (c :: acc) rest
    else if isDigitChar c ∨ c = '+' ∨ c = '-' ∨ c = '.' then
      if acc = [] then .ok ([], c :: rest) else getSchemeAux (c :: acc) rest
    else .ok ([], acc.reverse ++ c :: rest)

/-- Model of Go `net/url` `validOptionalPort`: empty, or a colon followed by
zero or more digits. -/
def validOptionalPort (p : Str) : Bool :=
  match p with
  | [] => true
  | ':' :: digits => digits.all isDigitChar
  | _ => false

/-- Characters Go `unescape(..., encodeHost)` accepts unescaped in a host:
alphanumerics, the mark and sub-delimiter sets, the extra host set
`:[]<>"`, percent escapes (escape validity elided), and non-ASCII bytes. -/
def validHostChar (c : Char) : Bool :=
  isAlphaChar c ∨ isDigitChar c ∨
  c ∈ ['-', '.', '_', '~', '!', '$', '&', '\'', '(', ')', '*', '+', ',', ';', '=',
       ':', '[', ']', '<', '>', '"', '%'] ∨
  c.toNat ≥ 128

/-- Host portion of an authority: the part after the last `@`
(Go `parseAuthority` splits userinfo at the last `@`). -/
def afterLastAt (s : Str) : Str := (s.reverse.takeWhile (fun c => c ≠ '@')).reverse

/-- Model of Go `net/url` `parseHost` restricted to the checks that can fail
for our claims: bracketed hosts need a closing bracket and a valid port;
plain hosts need a valid optional port after the last colon and characters
the host encoder accepts. -/
def parseHost (hp : Str) : Option Str :=
  if hp.head? = some '[' then
    let afterBr := hp.reverse.takeWhile (fun c => c ≠ ']')
    if afterBr.length = hp.length then none
    else if validOptionalPort afterBr.reverse then some hp else none
  else
    let afterColon := hp.reverse.takeWhile (fun c => c ≠ ':')
    if afterColon.length = hp.length then
      if hp.all validHostChar then some hp else none
    else if validOptionalPort (':' :: afterColon.reverse) then
      if hp.all validHostChar then some hp else none
    else none

/-- Model of Go `net/url` `parseAuthority` for the fields the program reads. -/
def parseAuthority (authority : Str) : Option Str := parseHost (afterLastAt authority)

/-- The URL fields the program reads, mirroring `net/url.URL`. -/
structure URLModel where
  Scheme : Str
  Host : Str
  Path : Str
deriving DecidableEq

/-- Model of Go `url.Parse` restricted to the `Scheme`, `Host` and `Path`
fields the program reads: fragment cut, control-byte rejection, scheme
split, query cut, opaque and relative forms, authority parsing, and
percent-decoding of the path (`setPath`). -/
def parseURL (rawURL : Str) : Option URLModel :=
  let beforeFrag := (cutFirst '#' rawURL).1
  if containsCTL beforeFrag then none
  else
    match getSchemeAux [] beforeFrag with
    | .error _ => none
    | .ok (scheme, afterScheme) =>
      let rest := (cutFirst '?' afterScheme).1
      if rest.take 2 = ['/', '/'] ∧ (scheme ≠ [] ∨ rest.take 3 ≠ ['/', '/', '/']) then
        let authority := (rest.drop 2).takeWhile (fun c => c ≠ '/')
        let pathPart := (rest.drop 2).dropWhile (fun c => c ≠ '/')
        match parseAuthority authority with
        | none => none
        | some host =>
          match unescapePercent false pathPart with
          | none => none
          | some path => some ⟨scheme, host, path⟩
      else if rest.head? = some '/' then
        match unescapePercent false rest with
        | none => none
        | some path => some ⟨scheme, [], path⟩
      else if scheme ≠ [] then some ⟨scheme, [], []⟩
      else if (rest.takeWhile (fun c => c ≠ '/')).contains ':' then none
      else
        match unescapePercent false rest with
        | none => none
        | some path => some ⟨scheme, [], path⟩

example : parseURL (str "https://example.com/archive/") =
    some ⟨str "https", str "example.com", str "/archive/"⟩ := by decide
example : parseURL (str "https://example.com") = some ⟨str "https", str "example.com", []⟩ := by
  decide
example : parseURL (str "HTTP://User@example.com:8080/a%20b?q=1#frag") =
    some ⟨str "http", str "example.com:8080", str "/a b"⟩ := by decide
example : parseURL (str "mailto:user@example.com") = some ⟨str "mailto", [], []⟩ := by decide
example : parseURL (str "example.com/x") = some ⟨[], [], str "example.com/x"⟩ := by decide
example : parseURL (str "http://exa mple.com/") = none := by decide
example : parseURL (str ":nope") = none := by decide

/-- Transcription of `validateURL`: empty, unparsable, non-allow-listed
scheme and hostless targets fail; the result is `some` error message
mirroring the Go error, `none` on success. -/
def validateURL (rawURL : Str) : Option Str :=
  if rawURL = [] then some (str "URL cannot be empty")
  else
    match parseURL rawURL with
    | none => some (str "invalid URL format")
    | some u =>
      if ¬(u.Scheme = str "http" ∨ u.Scheme = str "https" ∨ u.Scheme = str "ftp") then
        some (str "unsupported URL scheme")
      else if u.Host = [] then some (str "URL must contain a host")
      else none

example : validateURL (str "https://example.com/f.zip") = none := by decide
example : validateURL [] = some (str "URL cannot be empty") := by decide
example : validateURL (str "gopher://example.com/") = some (str "unsupported URL scheme") := by
  decide
example : validateURL (str "http:///rooted") = some (str "URL must contain a host") := by decide

/-- One step of Go `path/filepath` `Clean` segment processing: skip empty
and `.` segments; `..` pops a poppable segment, is dropped at the root,
and accumulates otherwise. -/
def cleanSegs (rooted : Bool) : List Str → List Str → List Str
  | acc, [] => acc.reverse
  | acc, s :: rest =>
    if s = [] ∨ s = ['.'] then cleanSegs rooted acc rest
    else if s = ['.', '.'] then
      (match acc with
       | a :: acc2 =>
         if a = ['.', '.'] then cleanSegs rooted (s :: a :: acc2) rest
         else cleanSegs rooted acc2 rest
       | [] => if rooted then cleanSegs rooted [] rest else cleanSegs rooted [s] rest)
    else cleanSegs rooted (s :: acc) rest

/-- Model of Go `filepath.Clean` on the Unix separator: lexical processing
of slash-separated segments. -/
def filepathClean (p : Str) : Str :=
  if p = [] then ['.']
  else
    let rooted := p.head? = some '/'
    let body := List.intercalate ['/'] (cleanSegs rooted [] (p.splitOn '/'))
    if rooted then '/' :: body
    else if body = [] then ['.'] else body

/-- Model of Go `filepath.Join` for two elements: drop empty elements, join
with a slash, `Clean` the result. -/
def filepathJoin (a b : Str) : Str :=
  match a, b with
  | [], [] => []
  | [], b => filepathClean b
  | a, [] => filepathClean a
  | a, b => filepathClean (a ++ '/' :: b)

/-- Model of Go `filepath.Base`: empty gives `.`, all-slashes gives `/`,
otherwise the last component after trailing slashes are removed. -/
def filepathBase (p : Str) : Str :=
  if p = [] then ['.']
  else
    let r := p.reverse.dropWhile (fun c => c = '/')
    if r = [] then ['/']
    else (r.takeWhile (fun c => c ≠ '/')).reverse

example : filepathClean (str "/a//b/./../c/") = str "/a/c" := by decide
example : filepathClean (str "../../x") = str "../../x" := by decide
example : filepathJoin (str "/data/dir") (str "report final.pdf") =
    str "/data/dir/report final.pdf" := by decide
example : filepathBase (str "/archive") = str "archive" := by decide
example : filepathBase (str "/") = str "/" := by decide
example : filepathBase [] = str "." := by decide

/-- Transcription of `inferFilenameFromURL`: on a parse error a timestamped
error name; otherwise the last path component with one trailing slash
stripped when the path is longer than `/`, falling back to a name derived
from the host, or a purely timestamped generic name. -/
def inferFilenameFromURL (rawURL : Str) (now : Nat) : Str :=
  match parseURL rawURL with
  | none => str "download_error_" ++ timestampStr now
  | some u =>
    let path := if u.Path.getLast? = some '/' ∧ u.Path.length > 1 then u.Path.dropLast else u.Path
    let filename := filepathBase path
    if filename = [] ∨ filename = ['.'] ∨ filename = ['/'] then
      if u.Host ≠ [] then
        str "download_from_" ++ sanitizeFilename u.Host now ++ str "_" ++ timestampStr now
      else str "downloaded_file_" ++ timestampStr now
    else sanitizeFilename filename now

example : inferFilenameFromURL (str "https://example.com/archive/") 3 = str "archive" := by
  decide
example : inferFilenameFromURL (str "https://example.com/") 3 =
    str "download_from_example.com_3" := by decide
example : inferFilenameFromURL (str "https://example.com") 3 =
    str "download_from_example.com_3" := by decide
example : inferFilenameFromURL (str "http://co\x01ntrol") 3 = str "download_error_3" := by decide

/-- Outcome of the HTTP HEAD probe of `detectFilename`: the request either
fails or yields the response's `Content-Disposition` header value (empty
when the server omits it). -/
inductive ProbeResult where
  | failed : ProbeResult
  | ok (contentDisposition : Str) : ProbeResult

/-- Transcription of the header logic of `detectFilename`: a non-empty
disposition filename is sanitized, otherwise the URL fallback applies;
`none` models the error return on probe failure. -/
def detectFilename (probe : ProbeResult) (rawURL : Str) (now : Nat) : Option Str :=
  match probe with
  | .failed => none
  | .ok hdr =>
    let f := parseContentDisposition hdr
    if f ≠ [] then some (sanitizeFilename f now) else some (inferFilenameFromURL rawURL now)

/-- Filename resolution of `downloadFile` (lines setting `item.Filename`):
`detectFilename`, falling back to `inferFilenameFromURL` on probe error. -/
def resolveItemFilename (probe : ProbeResult) (rawURL : Str) (now : Nat) : Str :=
  match detectFilename probe rawURL now with
  | some f => f
  | none => inferFilenameFromURL rawURL now

/-- File path recorded on the item by `downloadFile`
(`item.FilePath = filepath.Join(targetDir, filename)`). -/
def itemFilePath (targetDir : Str) (probe : ProbeResult) (rawURL : Str) (now : Nat) : Str :=
  filepathJoin targetDir (resolveItemFilename probe rawURL now)

/-- A name is free of the dangerous characters `<>:"/\\|?*`. -/
def noDangerous (s : Str) : Bool := s.all (fun c => !isDangerousChar c)

example : resolveItemFilename (.ok (str "attachment; filename=\"report final.pdf\""))
    (str "https://example.com/x.bin") 3 = str "report final.pdf" := by decide
example : itemFilePath (str "/dl") (.ok (str "attachment; filename=\"report final.pdf\""))
    (str "https://example.com/x.bin") 3 = str "/dl/report final.pdf" := by decide

/-- External file-system collaborator of `setupDestination`: the working
directory (`os.Getwd`), existence and directory-ness of paths (`os.Stat`),
directory creation permission (`os.MkdirAll`, beyond the deterministic
failure on an existing non-directory), and the write probe
(`os.CreateTemp`). -/
structure FileSys where
  cwdOk : Bool
  cwd : Str
  statIsDir : Str → Option Bool
  createOk : Str → Bool
  writeOk : Str → Bool

/-- Absolute-path test on the Unix layout (`filepath.IsAbs`). -/
def isAbsPath (p : Str) : Bool := p.head? = some '/'

/-- Model of `filepath.Abs`: clean an absolute path, join a relative one
onto the working directory. -/
def filepathAbs (fs : FileSys) (p : Str) : Str :=
  if isAbsPath p then filepathClean p else filepathJoin fs.cwd p

/-- Model of `os.MkdirAll` success: fails deterministically when the path
exists and is not a directory, otherwise at the file system's discretion. -/
def mkdirAllOk (fs : FileSys) (dir : Str) : Bool :=
  fs.statIsDir dir ≠ some false ∧ fs.createOk dir

/-- Error taxonomy of `setupDestination`, one constructor per `return ""`
error site of the source. -/
inductive DestError where
  | cwdError : DestError
  | absError (dest : Str) : DestError
  | notADirectory (dest : Str) : DestError
  | createError (dir : Str) : DestError
  | notWritable (dir : Str) : DestError
deriving DecidableEq

/-- Directory creation and write probe shared by both branches of
`setupDestination` (the `MkdirAll` and `CreateTemp` calls). -/
def finishDir (fs : FileSys) (dir : Str) : Except DestError Str :=
  if mkdirAllOk fs dir then
    if fs.writeOk dir then .ok dir else .error (.notWritable dir)
  else .error (.createError dir)

/-- Transcription of `setupDestination`: an empty destination resolves to
the working directory; otherwise the destination is made absolute and
accepted as a directory exactly when it stats as one or the raw input has
a trailing separator; then the directory is created and write-probed. -/
def setupDestination (fs : FileSys) (destination : Str) : Except DestError Str :=
  if destination = [] then
    if fs.cwdOk then finishDir fs fs.cwd else .error .cwdError
  else if ¬isAbsPath destination ∧ ¬fs.cwdOk then .error (.absError destination)
  else
    let absDest := filepathAbs fs destination
    if fs.statIsDir absDest = some true ∨ destination.getLast? = some '/' then finishDir fs absDest
    else .error (.notADirectory destination)

instance : DecidableEq (Except DestError Str) := fun x y =>
  match x, y with
  | .ok a, .ok b =>
    match decEq a b with
    | isTrue h => isTrue (h ▸ rfl)
    | isFalse h => isFalse (fun hc => h (Except.ok.inj hc))
  | .error a, .error b =>
    match decEq a b with
    | isTrue h => isTrue (h ▸ rfl)
    | isFalse h => isFalse (fun hc => h (Except.error.inj hc))
  | .ok _, .error _ => isFalse Except.noConfusion
  | .error _, .ok _ => isFalse Except.noConfusion

/-- A healthy file system rooted at `/home/user` where every path is an
existing writable directory. -/
def fsOk : FileSys :=
  ⟨true, str "/home/user", fun _ => some true, fun _ => true, fun _ => true⟩

/-- A file system where `/data/file` is an existing regular file and
everything else is an existing writable directory. -/
def fsWithFile : FileSys :=
  ⟨true, str "/home/user", fun p => if p = str "/data/file" then some false else some true,
   fun _ => true, fun _ => true⟩

example : setupDestination fsOk [] = .ok (str "/home/user") := by decide
example : setupDestination fsWithFile (str "/data/file") =
    .error (.notADirectory (str "/data/file")) := by decide
example : setupDestination fsWithFile (str "/data/file/") =
    .error (.createError (str "/data/file")) := by decide
/-- A file system where only the working directory exists. -/
def fsFresh : FileSys :=
  ⟨true, str "/home/user", fun p => if p = str "/home/user" then some true else none,
   fun _ => true, fun _ => true⟩

example : setupDestination fsFresh (str "dl") = .error (.notADirectory (str "dl")) := by decide
example : setupDestination fsFresh (str "dl/") = .ok (str "/home/user/dl") := by decide

/-- The configuration record, mirroring `Config` with Go string fields as
`Str` and Go `int` fields as `Int`. -/
structure Config where
  Destination : Str
  MaxSpeed : Str
  Timeout : Int
  ConnectTimeout : Int
  MaxTries : Int
  RetryWait : Int
  UserAgent : Str
  ParallelDownloads : Int
  Quiet : Bool
deriving DecidableEq

/-- The parsed command-line flag values of `main`; the `flag` package hands
back the registered default when a flag is not supplied, so these are the
values as seen after `flag.Parse()`. -/
structure Flags where
  d : Str
  maxSpeed : Str
  timeout : Int
  connectTimeout : Int
  maxTries : Int
  retryWait : Int
  userAgent : Str
  parallel : Int
  quiet : Bool

/-- Transcription of the `Config` construction in `main`: every flag value
is copied into the configuration unchanged — no field is validated or
corrected. -/
def mkConfig (f : Flags) : Config :=
  ⟨f.d, f.maxSpeed, f.timeout, f.connectTimeout, f.maxTries, f.retryWait,
   f.userAgent, f.parallel, f.quiet⟩

/-- The flag defaults registered in `main` (`defaultTimeout` 60,
`defaultConnectTimeout` 30, `defaultMaxTries` 5, `defaultRetryWait` 10,
`defaultParallelDownloads` 2). -/
def defaultFlags : Flags := ⟨[], [], 60, 30, 5, 10, [], 2, false⟩

/-- What the aria2c subprocess of one item did, as observed by
`downloadFile` after `cmd.Run()`: clean exit, a run error with the context
cancelled, an `*exec.ExitError` with an exit code, or a non-exit run
error. -/
inductive SubprocResult where
  | success : SubprocResult
  | ctxCanceled : SubprocResult
  | exitErr (code : Int) : SubprocResult
  | execErr : SubprocResult

/-- Transcription of the exit-code switch of `downloadFile`: the recognized
aria2c codes 3, 9 and 28 map to domain messages, every other code to the
generic message naming the code. -/
def classifyExitCode (code : Int) : Str :=
  if code = 3 then str "file not found or access denied"
  else if code = 9 then str "not enough disk space available"
  else if code = 28 then str "network timeout or connection refused"
  else str "aria2c failed with exit code " ++ intToStr code

/-- Terminal state of one item, the `{Succeeded, Cancelled, Failed(reason)}`
outcome of the executor. -/
inductive ItemOutcome where
  | ok : ItemOutcome
  | cancelled : ItemOutcome
  | failed (msg : Str) : ItemOutcome
deriving DecidableEq

/-- Outcome classification of `downloadFile`: a clean run succeeds, a run
error under a cancelled context is a cancellation, an exit error is
classified by code, any other run error is the generic execution
failure. -/
def itemOutcome : SubprocResult → ItemOutcome
  | .success => .ok
  | .ctxCanceled => .cancelled
  | .exitErr code => .failed (classifyExitCode code)
  | .execErr => .failed (str "aria2c execution failed")

/-- The error a worker goroutine sends on `errChan` for its item: failures
are wrapped as `download <i+1> failed: <reason>`; successes and
cancellations send nothing. -/
def workerError (index : Nat) : ItemOutcome → Option Str
  | .failed msg => some (str "download " ++ natToStr (index + 1) ++ str " failed: " ++ msg)
  | _ => none

/-- Batch-level error taxonomy of `runDownloads`, one constructor per
`return`-with-error site. -/
inductive RunError where
  | destError (e : DestError) : RunError
  | invalidTarget (url : Str) (msg : Str) : RunError
  | cancelledByUser : RunError
  | someFailed (msgs : List Str) : RunError
deriving DecidableEq

/-- Result of one `runDownloads` invocation: which item indices had a
downloader subprocess launched for them, the per-item outcomes, the permit
capacity of the worker-pool semaphore when the pool was created, and the
returned error. -/
structure RunOutcome where
  launches : List Nat
  outcomes : List ItemOutcome
  semCapacity : Option Int
  result : Option RunError
deriving DecidableEq

/-- First validation failure in the target list, the model of the
`for _, url := range urls` pre-flight loop that returns on the first
invalid URL. -/
def firstInvalidURL : List Str → Option (Str × Str)
  | [] => none
  | u :: rest =>
    match validateURL u with
    | some msg => some (u, msg)
    | none => firstInvalidURL rest

/-- Transcription of `runDownloads` at the level of observable outcomes:
destination resolution, the all-or-nothing validation gate, per-item
execution (the subprocess behaviour of item `i` supplied by the oracle
`res`), and final aggregation where context cancellation takes precedence
over the collected item failures.  The code drains `errChan` in completion
order; the model aggregates in index order, which the claims (counts and
membership only) do not distinguish. -/
def runDownloads (fs : FileSys) (urls : List Str) (res : Nat → SubprocResult)
    (ctxCancelledAtEnd : Bool) (config : Config) : RunOutcome :=
  match setupDestination fs config.Destination with
  | .error e => ⟨[], [], none, some (.destError e)⟩
  | .ok _ =>
    match firstInvalidURL urls with
    | some (u, msg) => ⟨[], [], none, some (.invalidTarget u msg)⟩
    | none =>
      let idxs := List.range urls.length
      let outcomes := idxs.map (fun i => itemOutcome (res i))
      let errs := idxs.filterMap (fun i => workerError i (itemOutcome (res i)))
      let result :=
        if ctxCancelledAtEnd then some RunError.cancelledByUser
        else if errs ≠ [] then some (RunError.someFailed errs)
        else none
      ⟨idxs, outcomes, some config.ParallelDownloads, result⟩

/-- Value model of the Go `error` values flowing from `runDownloads` to
`main`: `simple` is `errors.New`/`fmt.Errorf` without `%w`, `wrap` is
`fmt.Errorf` with `%w`, and `contextCanceled` is the `context.Canceled`
sentinel. -/
inductive GoErr where
  | simple (msg : Str) : GoErr
  | wrap (msg : Str) (inner : GoErr) : GoErr
  | contextCanceled : GoErr

/-- Model of `errors.Is(err, context.Canceled)`: identity with the sentinel
through the unwrap chain. -/
def errIsCanceled : GoErr → Bool
  | .contextCanceled => true
  | .wrap _ inner => errIsCanceled inner
  | .simple _ => false

/-- The Go error value each `RunError` return site constructs.  The
cancellation return is `fmt.Errorf("downloads cancelled by user")` with no
`%w` verb, hence a fresh `simple` error; the aggregate failure uses `%v`,
also not wrapping; the invalid-target return wraps the validation error
with `%w`. -/
def runErrToGo : RunError → GoErr
  | .destError _ => .simple (str "destination error")
  | .invalidTarget u m => .wrap (str "invalid URL " ++ u) (.simple m)
  | .cancelledByUser => .simple (str "downloads cancelled by user")
  | .someFailed _ => .simple (str "some downloads failed")

/-- Transcription of the exit logic of `main`: no error exits 0, an error
satisfying `errors.Is(err, context.Canceled)` exits 130, any other error
exits 1. -/
def mainExit (o : RunOutcome) : Nat :=
  match o.result with
  | none => 0
  | some e => if errIsCanceled (runErrToGo e) then 130 else 1

/-- The default configuration (no flags supplied). -/
def cfgDefault : Config := mkConfig defaultFlags

example :
    runDownloads fsOk [str "https://example.com/a.zip"] (fun _ => .success) false cfgDefault =
      ⟨[0], [.ok], some 2, none⟩ := by decide
example :
    mainExit (runDownloads fsOk [str "https://example.com/a.zip"] (fun _ => .ctxCanceled) true
      cfgDefault) = 1 := by decide
example :
    runDownloads fsOk [str "https://example.com/a.zip", str ""] (fun _ => .success) false
      cfgDefault = ⟨[], [], none, some (.invalidTarget [] (str "URL cannot be empty"))⟩ := by
  decide

/-- Phase of one worker goroutine of `runDownloads`: not yet holding a
permit (launched, possibly blocked on `sem <- struct{}{}`), holding the
permit with its subprocess work in flight (between the semaphore send and
the deferred receive), or finished (permit released). -/
inductive WStatus where
  | notStarted : WStatus
  | running : WStatus
  | done : WStatus
deriving DecidableEq

/-- Number of workers currently holding a permit, i.e. with subprocess work
in flight. -/
def countRunning (l : List WStatus) : Nat :=
  l.countP (fun w => w == WStatus.running)

/-- Interleaving semantics of the worker pool of `runDownloads` with permit
capacity `N`: a worker may acquire the permit only when fewer than `N`
permits are held (the buffered channel `sem` of capacity
`config.ParallelDownloads` blocks further sends), and a running worker may
finish, releasing its permit (`defer func() { <-sem }()`). -/
inductive PoolStep (N : Nat) : List WStatus → List WStatus → Prop
  | start (l : List WStatus) (i : Nat) (hi : i < l.length)
      (hst : l[i] = WStatus.notStarted) (hcap : countRunning l < N) :
      PoolStep N l (l.set i WStatus.running)
  | finish (l : List WStatus) (i : Nat) (hi : i < l.length)
      (hst : l[i] = WStatus.running) :
      PoolStep N l (l.set i WStatus.done)

/-- States of the worker pool reachable from the launch of `M` workers. -/
def PoolReachable (N M : Nat) (l : List WStatus) : Prop :=
  Relation.ReflTransGen (PoolStep N) (List.replicate M WStatus.notStarted) l

/-! Helper lemmas. -/

theorem noDangerous_iff (s : Str) : noDangerous s = true ↔ ∀ c ∈ s, isDangerousChar c = false := by
  simp [noDangerous, List.all_eq_true]

theorem isDangerousChar_digitChar (n : Nat) : isDangerousChar (digitChar n) = false := by
  have h : n % 10 < 10 := Nat.mod_lt _ (by decide)
  unfold digitChar
  interval_cases h : n % 10 <;> decide

theorem mem_natDigitsAux {c : Char} :
    ∀ fuel n, c ∈ natDigitsAux fuel n → isDangerousChar c = false := by
  intro fuel
  induction fuel with
  | zero => intro n h; simp [natDigitsAux] at h
  | succ f ih =>
    intro n h
    by_cases hn : n = 0
    · simp [natDigitsAux, hn] at h
    · simp only [natDigitsAux, if_neg hn, List.mem_append, List.mem_singleton] at h
      rcases h with h | h
      · exact ih _ h
      · rw [h]; exact isDangerousChar_digitChar _

theorem mem_natToStr {c : Char} (n : Nat) (h : c ∈ natToStr n) : isDangerousChar c = false := by
  unfold natToStr at h
  by_cases hn : n = 0
  · rw [if_pos hn] at h
    simp at h
    rw [h]; decide
  · rw [if_neg hn] at h
    exact mem_natDigitsAux _ _ h

theorem mem_timestampStr {c : Char} (n : Nat) (h : c ∈ timestampStr n) :
    isDangerousChar c = false := mem_natToStr n h

theorem mem_of_mem_dropWhile {c : Char} {p : Char → Bool} :
    ∀ {l : Str}, c ∈ l.dropWhile p → c ∈ l := by
  intro l
  induction l with
  | nil => intro h; simp at h
  | cons a t ih =>
    intro h
    by_cases hp : p a
    · rw [List.dropWhile_cons, if_pos hp] at h
      exact List.mem_cons_of_mem a (ih h)
    · rw [List.dropWhile_cons, if_neg hp] at h
      exact h

theorem mem_of_mem_trimCutset {c : Char} {cut s : Str} (h : c ∈ trimCutset cut s) : c ∈ s := by
  unfold trimCutset at h
  rw [List.mem_reverse] at h
  have h2 := mem_of_mem_dropWhile h
  rw [List.mem_reverse] at h2
  exact mem_of_mem_dropWhile h2

theorem mem_replaceDangerous {c : Char} {s : Str} (h : c ∈ replaceDangerous s) :
    isDangerousChar c = false := by
  unfold replaceDangerous at h
  rw [List.mem_map] at h
  obtain ⟨a, _, ha⟩ := h
  by_cases hd : isDangerousChar a
  · rw [if_pos hd] at ha; rw [← ha]; decide
  · rw [if_neg hd] at ha; rw [← ha]; exact Bool.eq_false_iff.mpr hd

theorem sanitizeFilename_noDangerous (s : Str) (t : Nat) :
    noDangerous (sanitizeFilename s t) = true := by
  rw [noDangerous_iff]
  intro c hc
  unfold sanitizeFilename at hc
  by_cases hif : trimCutset (str " .") (replaceDangerous s) = [] ∨
      isReservedName (trimCutset (str " .") (replaceDangerous s)) = true
  · simp only [if_pos hif, List.mem_append] at hc
    rcases hc with hc | hc
    · revert c; decide
    · exact mem_timestampStr t hc
  · simp only [if_neg hif] at hc
    exact mem_replaceDangerous (mem_of_mem_trimCutset hc)

theorem inferFilenameFromURL_noDangerous (rawURL : Str) (t : Nat) :
    noDangerous (inferFilenameFromURL rawURL t) = true := by
  rw [noDangerous_iff]
  intro c hc
  unfold inferFilenameFromURL at hc
  cases hu : parseURL rawURL with
  | none =>
    rw [hu] at hc
    rw [List.mem_append] at hc
    rcases hc with hc | hc
    · revert c; decide
    · exact mem_timestampStr t hc
  | some u =>
    rw [hu] at hc
    dsimp only at hc
    set fn := filepathBase
      (if u.Path.getLast? = some '/' ∧ u.Path.length > 1 then u.Path.dropLast else u.Path) with hfn
    by_cases h1 : fn = [] ∨ fn = ['.'] ∨ fn = ['/']
    · rw [if_pos h1] at hc
      by_cases h2 : u.Host ≠ []
      · rw [if_pos h2] at hc
        simp only [List.append_assoc, List.mem_append] at hc
        rcases hc with hc | hc | hc | hc
        · revert c; decide
        · have := sanitizeFilename_noDangerous u.Host t
          rw [noDangerous_iff] at this
          exact this c hc
        · revert c; decide
        · exact mem_timestampStr t hc
      · rw [if_neg h2] at hc
        rw [List.mem_append] at hc
        rcases hc with hc | hc
        · revert c; decide
        · exact mem_timestampStr t hc
    · rw [if_neg h1] at hc
      have := sanitizeFilename_noDangerous fn t
      rw [noDangerous_iff] at this
      exact this c hc

theorem resolveItemFilename_noDangerous (probe : ProbeResult) (rawURL : Str) (t : Nat) :
    noDangerous (resolveItemFilename probe rawURL t) = true := by
  unfold resolveItemFilename detectFilename
  cases probe with
  | failed => dsimp only; exact inferFilenameFromURL_noDangerous rawURL t
  | ok hdr =>
    dsimp only
    by_cases h : parseContentDisposition hdr ≠ []
    · rw [if_pos h]
      exact sanitizeFilename_noDangerous _ t
    · rw [if_neg h]
      exact inferFilenameFromURL_noDangerous rawURL t

/-! Claim theorems. -/

/-- C1.  For every permit capacity `N ≥ 1` and batch of `M ≥ N` workers, no
state of the worker pool reachable from the launch of the `M` workers has
more than `N` workers holding a permit, hence no more than `N` downloader
subprocesses execute simultaneously: a worker acquires the counting permit
before its subprocess work and releases it on completion. -/
theorem c1_parallelism_cap (N M : Nat) (hN : 1 ≤ N) (hM : N ≤ M) (l : List WStatus)
    (h : PoolReachable N M l) : countRunning l ≤ N := by
  induction h with
  | refl =>
    have : countRunning (List.replicate M WStatus.notStarted) = 0 := by
      induction M with
      | zero => rfl
      | succ m ih =>
        rw [List.replicate_succ]
        unfold countRunning at ih ⊢
        rw [List.countP_cons]
        simp [ih]
    omega
  | tail _ hstep ih =>
    cases hstep with
    | start i hi hst hcap =>
      unfold countRunning at ih hcap ⊢
      rw [List.countP_set _ _ _ _ hi]
      rw [hst]
      simp
      omega
    | finish i hi hst =>
      unfold countRunning at ih ⊢
      rw [List.countP_set _ _ _ _ hi]
      rw [hst]
      simp
      omega

/-- Witness for C1 at capacity 2 and batch size 3. -/
theorem c1_parallelism_cap_witness :
    (1 ≤ 2 ∧ 2 ≤ 3) ∧ countRunning (List.replicate 3 WStatus.notStarted) ≤ 2 :=
  ⟨by decide, c1_parallelism_cap 2 3 (by decide) (by decide) _ Relation.ReflTransGen.refl⟩

/-- C4.  For every successful single-item download the reported final file
path equals the destination directory joined with the resolved filename;
the resolved filename never contains any of the characters `<>:"/\\|?*`;
sanitization falls back to a timestamped generic name exactly when the
cleaned name is empty or a reserved device name; and the disposition
header `attachment; filename="report final.pdf"` resolves to
`report final.pdf` with the space preserved. -/
theorem c4_final_path_and_filename :
    (∀ dir probe url t, itemFilePath dir probe url t =
        filepathJoin dir (resolveItemFilename probe url t)) ∧
    (∀ probe url t, noDangerous (resolveItemFilename probe url t) = true) ∧
    (∀ s t, (trimCutset (str " .") (replaceDangerous s) = [] ∨
        isReservedName (trimCutset (str " .") (replaceDangerous s)) = true) →
      sanitizeFilename s t = str "download_" ++ timestampStr t) ∧
    (∀ dir t,
      itemFilePath dir (.ok (str "attachment; filename=\"report final.pdf\""))
          (str "https://example.com/x.bin") t = filepathJoin dir (str "report final.pdf") ∧
      resolveItemFilename (.ok (str "attachment; filename=\"report final.pdf\""))
          (str "https://example.com/x.bin") t = str "report final.pdf") := by
  refine ⟨?_, ?_, ?_, ?_⟩
  · intro dir probe url t
    rfl
  · intro probe url t
    exact resolveItemFilename_noDangerous probe url t
  · intro s t h
    unfold sanitizeFilename
    dsimp only
    rw [if_pos h]
  · intro dir t
    have h : resolveItemFilename (.ok (str "attachment; filename=\"report final.pdf\""))
        (str "https://example.com/x.bin") t = str "report final.pdf" := by
      unfold resolveItemFilename detectFilename
      dsimp only
      rw [if_pos (by decide)]
      unfold sanitizeFilename
      dsimp only
      rw [if_neg (by decide)]
      decide
    exact ⟨by unfold itemFilePath; rw [h], h⟩

/-- Witness for C4: the sanitization fallback fires on a name of dots. -/
theorem c4_final_path_and_filename_witness :
    trimCutset (str " .") (replaceDangerous (str "...")) = [] ∧
    sanitizeFilename (str "...") 9 = str "download_" ++ timestampStr 9 :=
  ⟨by decide, c4_final_path_and_filename.2.2.1 (str "...") 9 (Or.inl (by decide))⟩

theorem firstInvalidURL_isSome_of_mem {u : Str} (hv : validateURL u ≠ none) :
    ∀ {urls : List Str}, u ∈ urls → (firstInvalidURL urls).isSome := by
  intro urls
  induction urls with
  | nil => intro hm; simp at hm
  | cons a rest ih =>
    intro hm
    cases hva : validateURL a with
    | some m => simp [firstInvalidURL, hva]
    | none =>
      rcases List.mem_cons.mp hm with h | h
      · subst h; exact absurd hva hv
      · simpa [firstInvalidURL, hva] using ih h

/-- C3.  A batch whose target list contains an invalid target (given that
destination resolution succeeds, which runs first) is aborted with an
invalid-target error and no downloader subprocess is ever launched; and a
target is valid exactly when it is non-empty, parses, carries an
allow-listed scheme, and has a host. -/
theorem c3_invalid_target_aborts_batch :
    (∀ fs urls res c cfg td, setupDestination fs cfg.Destination = .ok td →
      (∃ u ∈ urls, validateURL u ≠ none) →
      (runDownloads fs urls res c cfg).launches = [] ∧
      ∃ v msg, (runDownloads fs urls res c cfg).result = some (.invalidTarget v msg)) ∧
    (∀ u, validateURL u = none ↔ (u ≠ [] ∧ ∃ U, parseURL u = some U ∧
      (U.Scheme = str "http" ∨ U.Scheme = str "https" ∨ U.Scheme = str "ftp") ∧
      U.Host ≠ [])) := by
  constructor
  · intro fs urls res c cfg td hsetup hex
    obtain ⟨u, hm, hv⟩ := hex
    have hsome := firstInvalidURL_isSome_of_mem hv hm
    unfold runDownloads
    rw [hsetup]
    cases hfi : firstInvalidURL urls with
    | none => rw [hfi] at hsome; simp at hsome
    | some p => exact ⟨rfl, p.1, p.2, rfl⟩
  · intro u
    constructor
    · intro hn
      by_cases h0 : u = []
      · rw [h0] at hn; simp [validateURL] at hn
      · unfold validateURL at hn
        rw [if_neg h0] at hn
        cases hp : parseURL u with
        | none => rw [hp] at hn; simp at hn
        | some U =>
          rw [hp] at hn
          dsimp only at hn
          by_cases hA : U.Scheme = str "http" ∨ U.Scheme = str "https" ∨ U.Scheme = str "ftp"
          · rw [if_neg (not_not_intro hA)] at hn
            by_cases hh : U.Host = []
            · rw [if_pos hh] at hn; simp at hn
            · exact ⟨h0, U, rfl, hA, hh⟩
          · rw [if_pos hA] at hn; simp at hn
    · rintro ⟨h0, U, hp, hA, hh⟩
      unfold validateURL
      rw [if_neg h0, hp]
      dsimp only
      rw [if_neg (not_not_intro hA), if_neg hh]

/-- Witness for C3: a two-element batch with one unsupported-scheme target
aborts with the invalid-target error and launches nothing. -/
theorem c3_invalid_target_aborts_batch_witness :
    setupDestination fsOk cfgDefault.Destination = (Except.ok (str "/home/user") : Except DestError Str) ∧
    (∃ u ∈ [str "https://ok.example/a", str "bad url"], validateURL u ≠ none) ∧
    ((runDownloads fsOk [str "https://ok.example/a", str "bad url"] (fun _ => .success) false
        cfgDefault).launches = [] ∧
      ∃ v msg, (runDownloads fsOk [str "https://ok.example/a", str "bad url"]
        (fun _ => .success) false cfgDefault).result = some (.invalidTarget v msg)) :=
  ⟨by decide, ⟨str "bad url", by decide, by decide⟩,
    c3_invalid_target_aborts_batch.1 fsOk _ _ false cfgDefault (str "/home/user") (by decide)
      ⟨str "bad url", by decide, by decide⟩⟩

/-- C2.  The cancellation return of `runDownloads` is
`fmt.Errorf("downloads cancelled by user")` without `%w`, so no error it
returns ever satisfies `errors.Is(err, context.Canceled)`: the exit-130
branch of `main` is unreachable and a cancelled run exits with code 1
(while still reporting the single cancellation-level failure). -/
theorem c2_cancelled_run_exits_one :
    (∀ e, errIsCanceled (runErrToGo e) = false) ∧
    (∀ fs urls res c cfg, mainExit (runDownloads fs urls res c cfg) ≠ 130) ∧
    ((runDownloads fsOk [str "https://example.com/big.iso"] (fun _ => .ctxCanceled) true
        cfgDefault).result = some RunError.cancelledByUser ∧
      mainExit (runDownloads fsOk [str "https://example.com/big.iso"] (fun _ => .ctxCanceled)
        true cfgDefault) = 1) := by
  have he : ∀ e, errIsCanceled (runErrToGo e) = false := by
    intro e
    cases e <;> rfl
  refine ⟨he, ?_, by decide⟩
  intro fs urls res c cfg
  unfold mainExit
  cases hr : (runDownloads fs urls res c cfg).result with
  | none => simp
  | some e =>
    dsimp only
    rw [he e]
    simp

/-- Witness for C2 at a concrete successful run. -/
theorem c2_cancelled_run_exits_one_witness :
    mainExit (runDownloads fsOk [str "https://example.com/a.zip"] (fun _ => .success) false
      cfgDefault) ≠ 130 :=
  c2_cancelled_run_exits_one.2.1 fsOk _ _ false cfgDefault

/-- The three valid URLs of the C6 scenario. -/
def scenarioURLs : List Str :=
  [str "https://a.example/f1", str "https://b.example/f2", str "https://c.example/f3"]

/-- Subprocess oracle of the C6 scenario: the second item exits with aria2c
code 3, the others succeed. -/
def scenarioRes (i : Nat) : SubprocResult := if i = 1 then .exitErr 3 else .success

/-- C6.  Recognized aria2c exit codes map to their domain messages and all
other non-zero codes to the generic message naming the code; in the
3-URL / parallelism-2 scenario with one code-3 exit the aggregate holds
two successes and one failure tagged with the access-denied message, and
the process exits 1. -/
theorem c6_exit_code_mapping :
    (classifyExitCode 3 = str "file not found or access denied" ∧
     classifyExitCode 9 = str "not enough disk space available" ∧
     classifyExitCode 28 = str "network timeout or connection refused") ∧
    (∀ n : Int, n ≠ 0 → n ≠ 3 → n ≠ 9 → n ≠ 28 →
      classifyExitCode n = str "aria2c failed with exit code " ++ intToStr n) ∧
    (runDownloads fsOk scenarioURLs scenarioRes false
        { cfgDefault with ParallelDownloads := 2 } =
      ⟨[0, 1, 2], [.ok, .failed (str "file not found or access denied"), .ok], some 2,
        some (.someFailed [str "download 2 failed: file not found or access denied"])⟩ ∧
      ((runDownloads fsOk scenarioURLs scenarioRes false
        { cfgDefault with ParallelDownloads := 2 }).outcomes.countP (· == ItemOutcome.ok) = 2 ∧
      mainExit (runDownloads fsOk scenarioURLs scenarioRes false
        { cfgDefault with ParallelDownloads := 2 }) = 1)) := by
  refine ⟨by refine ⟨rfl, rfl, rfl⟩, ?_, by decide⟩
  intro n h0 h3 h9 h28
  unfold classifyExitCode
  rw [if_neg h3, if_neg h9, if_neg h28]

/-- Witness for C6 at exit code 7. -/
theorem c6_exit_code_mapping_witness :
    classifyExitCode 7 = str "aria2c failed with exit code " ++ intToStr 7 :=
  c6_exit_code_mapping.2.1 7 (by decide) (by decide) (by decide) (by decide)

/-- Counterexample for C5 as stated: a destination naming an existing
regular file WITH a trailing separator passes the directory heuristic and
fails later in `os.MkdirAll`, so the error is a directory-creation error,
not the not-a-directory error the claim promises for every existing
non-directory path. -/
theorem c5_counterexample_trailing_separator :
    fsWithFile.statIsDir (filepathAbs fsWithFile (str "/data/file/")) = some false ∧
    setupDestination fsWithFile (str "/data/file/") =
      (Except.error (.createError (str "/data/file")) : Except DestError Str) ∧
    setupDestination fsWithFile (str "/data/file/") ≠
      (Except.error (.notADirectory (str "/data/file/")) : Except DestError Str) := by
  decide

/-- C5 (amended).  An empty destination resolves to the working directory;
a non-empty destination whose resolved path does not stat as a directory
and whose raw form lacks a trailing separator is rejected with the
not-a-directory error (with a trailing separator the failure surfaces as
a directory-creation error instead); and the scenario: a destination
naming an existing regular file with no trailing separator fails with the
not-a-directory error before any subprocess is launched, and the process
exits 1. -/
theorem c5_destination_resolution :
    (∀ fs : FileSys, fs.cwdOk = true → mkdirAllOk fs fs.cwd = true →
      fs.writeOk fs.cwd = true →
      setupDestination fs [] = (Except.ok fs.cwd : Except DestError Str)) ∧
    (∀ fs dest, dest ≠ [] → (isAbsPath dest = true ∨ fs.cwdOk = true) →
      fs.statIsDir (filepathAbs fs dest) ≠ some true → dest.getLast? ≠ some '/' →
      setupDestination fs dest =
        (Except.error (.notADirectory dest) : Except DestError Str)) ∧
    (setupDestination fsWithFile (str "/data/file") =
        (Except.error (.notADirectory (str "/data/file")) : Except DestError Str) ∧
      (runDownloads fsWithFile [str "https://example.com/a.zip"] (fun _ => .success) false
        { cfgDefault with Destination := str "/data/file" }).launches = [] ∧
      (runDownloads fsWithFile [str "https://example.com/a.zip"] (fun _ => .success) false
        { cfgDefault with Destination := str "/data/file" }).result =
        some (.destError (.notADirectory (str "/data/file"))) ∧
      mainExit (runDownloads fsWithFile [str "https://example.com/a.zip"] (fun _ => .success)
        false { cfgDefault with Destination := str "/data/file" }) = 1) := by
  refine ⟨?_, ?_, by decide⟩
  · intro fs h1 h2 h3
    unfold setupDestination
    rw [if_pos rfl, if_pos h1]
    unfold finishDir
    rw [if_pos h2, if_pos h3]
  · intro fs dest hne habs hstat hsep
    unfold setupDestination
    rw [if_neg hne]
    rw [if_neg (by
      rintro ⟨hna, hnc⟩
      rcases habs with h | h
      · exact hna h
      · exact hnc h)]
    dsimp only
    rw [if_neg (by
      rintro (h | h)
      · exact hstat h
      · exact hsep h)]

/-- Witness for C5 at the existing-regular-file destination. -/
theorem c5_destination_resolution_witness :
    (str "/data/file" ≠ ([] : Str) ∧
      isAbsPath (str "/data/file") = true ∧
      fsWithFile.statIsDir (filepathAbs fsWithFile (str "/data/file")) ≠ some true ∧
      (str "/data/file").getLast? ≠ some '/') ∧
    setupDestination fsWithFile (str "/data/file") =
      (Except.error (.notADirectory (str "/data/file")) : Except DestError Str) :=
  ⟨by decide,
    c5_destination_resolution.2.1 fsWithFile (str "/data/file") (by decide)
      (Or.inl (by decide)) (by decide) (by decide)⟩

theorem sanitizeFilename_of_clean {s : Str}
    (h1 : trimCutset (str " .") (replaceDangerous s) ≠ [])
    (h2 : isReservedName (trimCutset (str " .") (replaceDangerous s)) = false) (t : Nat) :
    sanitizeFilename s t = trimCutset (str " .") (replaceDangerous s) := by
  unfold sanitizeFilename
  dsimp only
  rw [if_neg (by
    rintro (h | h)
    · exact h1 h
    · rw [h2] at h
      cases h)]

/-- The `filename := filepath.Base(path)` computation of
`inferFilenameFromURL`: the URL path with one trailing slash stripped when
longer than a bare `/`, then its base component. -/
def urlPathFilename (u : URLModel) : Str :=
  filepathBase (if u.Path.getLast? = some '/' ∧ u.Path.length > 1 then u.Path.dropLast else u.Path)

/-- Counterexample for C7 as stated: for `https://example.com/archive/` the
trailing slash is stripped and the last path component `archive` is taken,
so the resolved filename is `archive`, not a host-derived
`download_from_example.com_<time>` name. -/
theorem c7_counterexample_trailing_slash :
    inferFilenameFromURL (str "https://example.com/archive/") 0 = str "archive" ∧
    (inferFilenameFromURL (str "https://example.com/archive/") 0).take
        (str "download_from_").length ≠ str "download_from_" := by
  decide

/-- C7 (amended).  The filename is derived from the URL path with the
trailing slash stripped and the last path component taken; only when that
yields no usable component is a name synthesized from the host and a
timestamp, or a purely timestamped generic name without a host.  In
particular `https://example.com/archive/` resolves to `archive`, while the
host-derived `download_from_example.com_<time>` pattern arises for
`https://example.com/`. -/
theorem c7_url_path_naming :
    (∀ raw u t, parseURL raw = some u →
      (urlPathFilename u ≠ [] ∧ urlPathFilename u ≠ ['.'] ∧ urlPathFilename u ≠ ['/']) →
      inferFilenameFromURL raw t = sanitizeFilename (urlPathFilename u) t) ∧
    (∀ raw u t, parseURL raw = some u →
      (urlPathFilename u = [] ∨ urlPathFilename u = ['.'] ∨ urlPathFilename u = ['/']) →
      u.Host ≠ [] →
      inferFilenameFromURL raw t =
        str "download_from_" ++ sanitizeFilename u.Host t ++ str "_" ++ timestampStr t) ∧
    (∀ raw u t, parseURL raw = some u →
      (urlPathFilename u = [] ∨ urlPathFilename u = ['.'] ∨ urlPathFilename u = ['/']) →
      u.Host = [] →
      inferFilenameFromURL raw t = str "downloaded_file_" ++ timestampStr t) ∧
    (∀ t, inferFilenameFromURL (str "https://example.com/archive/") t = str "archive") ∧
    (∀ t, inferFilenameFromURL (str "https://example.com/") t =
      str "download_from_example.com_" ++ timestampStr t) := by
  refine ⟨?_, ?_, ?_, ?_, ?_⟩
  · intro raw u t hp hb
    unfold inferFilenameFromURL
    rw [hp]
    dsimp only
    rw [if_neg (by
      rintro (h | h | h)
      · exact hb.1 h
      · exact hb.2.1 h
      · exact hb.2.2 h)]
    rfl
  · intro raw u t hp hb hh
    unfold inferFilenameFromURL
    rw [hp]
    dsimp only
    unfold urlPathFilename at hb
    rw [if_pos hb, if_pos hh]
  · intro raw u t hp hb hh
    unfold inferFilenameFromURL
    rw [hp]
    dsimp only
    unfold urlPathFilename at hb
    rw [if_pos hb, if_neg (by
      intro hcon
      exact hcon hh)]
  · intro t
    have h1 : inferFilenameFromURL (str "https://example.com/archive/") t =
        sanitizeFilename (str "archive") t := rfl
    rw [h1, sanitizeFilename_of_clean (by decide) (by decide)]
    decide
  · intro t
    have h1 : inferFilenameFromURL (str "https://example.com/") t =
        str "download_from_" ++ sanitizeFilename (str "example.com") t ++ str "_" ++
          timestampStr t := rfl
    rw [h1, sanitizeFilename_of_clean (by decide) (by decide)]
    rfl

/-- Witness for C7 at a concrete parsed URL. -/
theorem c7_url_path_naming_witness :
    parseURL (str "https://example.com/docs/guide.pdf") =
      some ⟨str "https", str "example.com", str "/docs/guide.pdf"⟩ ∧
    inferFilenameFromURL (str "https://example.com/docs/guide.pdf") 5 =
      sanitizeFilename (urlPathFilename ⟨str "https", str "example.com",
        str "/docs/guide.pdf"⟩) 5 :=
  ⟨by decide,
    c7_url_path_naming.1 (str "https://example.com/docs/guide.pdf")
      ⟨str "https", str "example.com", str "/docs/guide.pdf"⟩ 5 (by decide) (by decide)⟩

/-- C8.  The encoded `filename*` parameter is preferred whenever it is
present and decodes to a non-empty name; when it is absent or fails to
decode, the plain `filename` parameter is used with surrounding quotes and
spaces trimmed (and the empty string results when neither matches). -/
theorem c8_filename_star_preference :
    (∀ h s, findFilenameStar h = some s →
      decodeRFC5987 (trimCutset quoteCutset s) ≠ [] →
      parseContentDisposition h = decodeRFC5987 (trimCutset quoteCutset s)) ∧
    (∀ h s, findFilenameStar h = some s →
      decodeRFC5987 (trimCutset quoteCutset s) = [] →
      parseContentDisposition h =
        (match findFilenamePlain h with
         | some m => trimCutset quoteCutset m
         | none => [])) ∧
    (∀ h, findFilenameStar h = none →
      parseContentDisposition h =
        (match findFilenamePlain h with
         | some m => trimCutset quoteCutset m
         | none => [])) := by
  refine ⟨?_, ?_, ?_⟩
  · intro h s hf hd
    by_cases h0 : h = []
    · rw [h0] at hf
      simp [findFilenameStar, findFirst, matchStarAt, matchLit, str] at hf
    · unfold parseContentDisposition
      rw [if_neg h0, hf]
      dsimp only
      rw [if_pos hd]
  · intro h s hf hd
    by_cases h0 : h = []
    · rw [h0] at hf
      simp [findFilenameStar, findFirst, matchStarAt, matchLit, str] at hf
    · unfold parseContentDisposition
      rw [if_neg h0, hf]
      dsimp only
      rw [hd]
      rw [if_neg (by
        intro hcon
        exact hcon rfl)]
  · intro h hf
    by_cases h0 : h = []
    · rw [h0]
      rw [show parseContentDisposition [] = [] from rfl]
      rw [show findFilenamePlain [] = none from rfl]
    · unfold parseContentDisposition
      rw [if_neg h0, hf]
      dsimp only
      rw [if_neg (by
        intro hcon
        exact hcon rfl)]

/-- Witness for C8: a header carrying both parameters resolves through the
encoded one. -/
theorem c8_filename_star_preference_witness :
    findFilenameStar
        (str "attachment; filename=\"plain.txt\"; filename*=utf-8\x27\x27report%20final.pdf") =
      some (str "utf-8\x27\x27report%20final.pdf") ∧
    decodeRFC5987 (trimCutset quoteCutset (str "utf-8\x27\x27report%20final.pdf")) ≠ [] ∧
    parseContentDisposition
        (str "attachment; filename=\"plain.txt\"; filename*=utf-8\x27\x27report%20final.pdf") =
      decodeRFC5987 (trimCutset quoteCutset (str "utf-8\x27\x27report%20final.pdf")) :=
  ⟨by decide, by decide,
    c8_filename_star_preference.1
      (str "attachment; filename=\"plain.txt\"; filename*=utf-8\x27\x27report%20final.pdf")
      (str "utf-8\x27\x27report%20final.pdf") (by decide) (by decide)⟩

/-- Counterexample for C9 as stated: the header `attachment; filename=CON`
parses to the reserved name `CON`, whose sanitization injects the current
timestamp, so resolving the same header at two different times yields two
different names — the composition is not a function of the header content
alone. -/
theorem c9_determinism_counterexample :
    sanitizeFilename (parseContentDisposition (str "attachment; filename=CON")) 0 ≠
    sanitizeFilename (parseContentDisposition (str "attachment; filename=CON")) 1 := by
  decide

/-- C9 (amended).  For every header whose parsed filename survives
sanitization without the timestamped fallback (its cleaned form is
non-empty and not a reserved device name), resolving the filename is
independent of the clock, hence a deterministic function of the header
content alone; resolving such a header twice yields the same name. -/
theorem c9_resolution_deterministic_when_clean :
    ∀ hdr t₁ t₂,
      trimCutset (str " .") (replaceDangerous (parseContentDisposition hdr)) ≠ [] →
      isReservedName (trimCutset (str " .") (replaceDangerous (parseContentDisposition hdr))) =
        false →
      sanitizeFilename (parseContentDisposition hdr) t₁ =
        sanitizeFilename (parseContentDisposition hdr) t₂ := by
  intro hdr t₁ t₂ h1 h2
  rw [sanitizeFilename_of_clean h1 h2, sanitizeFilename_of_clean h1 h2]

/-- Witness for C9 on a clean header at two distinct times. -/
theorem c9_resolution_deterministic_when_clean_witness :
    sanitizeFilename (parseContentDisposition (str "attachment; filename=\"report.pdf\"")) 0 =
      sanitizeFilename (parseContentDisposition (str "attachment; filename=\"report.pdf\"")) 5 :=
  c9_resolution_deterministic_when_clean (str "attachment; filename=\"report.pdf\"") 0 5
    (by decide) (by decide)

/-- Flag set differing from the defaults only in a zero timeout. -/
def flagsZeroTimeout : Flags := { defaultFlags with timeout := 0 }

/-- Counterexample for C10 as stated: with `-timeout 0` the configuration
reaching the orchestrator violates `timeouts > 0`, yet the worker pool is
created and the batch runs to completion — nothing rejects or corrects the
value before the pool and its counting permit exist. -/
theorem c10_counterexample_zero_timeout :
    (mkConfig flagsZeroTimeout).Timeout = 0 ∧
    ¬(0 < (mkConfig flagsZeroTimeout).Timeout) ∧
    runDownloads fsOk [str "https://example.com/a.zip"] (fun _ => .success) false
        (mkConfig flagsZeroTimeout) =
      ⟨[0], [.ok], some (mkConfig flagsZeroTimeout).ParallelDownloads, none⟩ := by
  decide

/-- C10 (amended).  `main` performs no validation or correction of the
parallelism and timeout flags: every flag value is copied into the
configuration unchanged and the pool permit capacity equals the supplied
parallelism whenever the pool is created; the invariant
`parallelism ≥ 1 ∧ timeouts > 0` holds for the registered defaults
(parallelism 2, timeout 60, connect-timeout 30) but for no other reason. -/
theorem c10_config_no_validation :
    (∀ f, (mkConfig f).ParallelDownloads = f.parallel ∧ (mkConfig f).Timeout = f.timeout ∧
      (mkConfig f).ConnectTimeout = f.connectTimeout) ∧
    ((mkConfig defaultFlags).ParallelDownloads = 2 ∧ (mkConfig defaultFlags).Timeout = 60 ∧
      (mkConfig defaultFlags).ConnectTimeout = 30 ∧
      1 ≤ (mkConfig defaultFlags).ParallelDownloads ∧ 0 < (mkConfig defaultFlags).Timeout ∧
      0 < (mkConfig defaultFlags).ConnectTimeout) ∧
    (∀ fs urls res c f td, setupDestination fs (mkConfig f).Destination = .ok td →
      firstInvalidURL urls = none →
      (runDownloads fs urls res c (mkConfig f)).semCapacity = some f.parallel) := by
  refine ⟨fun f => ⟨rfl, rfl, rfl⟩, by decide, ?_⟩
  intro fs urls res c f td hsetup hvalid
  unfold runDownloads
  rw [hsetup, hvalid]
  rfl

/-- Witness for C10: the pool capacity equals the supplied parallelism on a
concrete run. -/
theorem c10_config_no_validation_witness :
    (runDownloads fsOk [str "https://example.com/a.zip"] (fun _ => .success) false
      (mkConfig defaultFlags)).semCapacity = some defaultFlags.parallel :=
  c10_config_no_validation.2.2 fsOk [str "https://example.com/a.zip"] (fun _ => .success) false
    defaultFlags (str "/home/user") (by decide) (by decide)
